import Mathlib

/-!
Verification development for the API-documentation generator
(`api_docs.py`, class `APIDocumentationGenerator`).

The Python module is shallowly embedded below: the abstract-syntax-tree
shapes the code inspects become the inductive type `Expr` (with `Const` for
literal constants), function and class definitions become `FunctionDef` and
`Stmt`, and each method of the generator becomes a Lean function of the same
name (leading underscores dropped).  Python exceptions that the code can
raise and catch are made explicit with `Except Unit`; Python dictionaries
(which preserve insertion order and overwrite in place) are association
lists manipulated by `setKey` / `lookupD`.  The AST is embedded after the
semantics of CPython 3.9-3.11, the versions on which this module (it still
uses the deprecated `ast.Str`) runs: a subscript's slice is the bare
expression, and a multi-parameter subscript carries a tuple slice.

String primitives (`strip`, `lower`, `split`, `startswith`, substring test)
are re-implemented structurally over `List Char` so that every definition
evaluates by kernel reduction; they model the ASCII behaviour of their
Python counterparts, which is the only behaviour the claims exercise.
-/

/-! ## Python string primitives -/

/-- Whitespace as Python's `str.strip` and `\s` see it (ASCII range). -/
def pyWhite (c : Char) : Bool :=
  c = ' ' || c = '\t' || c = '\n' || c = '\r' || c = '\x0b' || c = '\x0c'

/-- ASCII lower-casing of one character, as `str.lower` acts on ASCII. -/
def lowerChar (c : Char) : Char :=
  if 65 ≤ c.toNat ∧ c.toNat ≤ 90 then Char.ofNat (c.toNat + 32) else c

/-- ASCII upper-casing of one character, as `str.upper` acts on ASCII. -/
def upperChar (c : Char) : Char :=
  if 97 ≤ c.toNat ∧ c.toNat ≤ 122 then Char.ofNat (c.toNat - 32) else c

/-- Python `s.lower()`. -/
def pyLower (s : String) : String := String.mk (s.data.map lowerChar)

/-- Python `s.upper()`. -/
def pyUpper (s : String) : String := String.mk (s.data.map upperChar)

/-- Python `s.strip()`: drop whitespace from both ends. -/
def pyStrip (s : String) : String :=
  String.mk (((s.data.dropWhile pyWhite).reverse.dropWhile pyWhite).reverse)

/-- Python `s.startswith(pre)`. -/
def pyStartsWith (s pre : String) : Bool := pre.data.isPrefixOf s.data

/-- Python `s.split(sep)` for a one-character separator, on char lists. -/
def pySplitChar (sep : Char) : List Char → List (List Char)
  | [] => [[]]
  | c :: rest =>
    if c = sep then [] :: pySplitChar sep rest
    else
      match pySplitChar sep rest with
      | [] => [[c]]
      | g :: gs => (c :: g) :: gs

/-- Python `s.split(sep)` for a one-character separator. -/
def pySplit (s : String) (sep : Char) : List String :=
  (pySplitChar sep s.data).map String.mk

/-- Occurrence of one character list inside another (at any position). -/
def subList : List Char → List Char → Bool
  | n, [] => n.isEmpty
  | n, c :: t => n.isPrefixOf (c :: t) || subList n t

/-- Python `needle in hay` on strings: substring containment. -/
def pyInStr (needle hay : String) : Bool :=
  subList needle.data hay.data

/-- Python `sep.join(parts)`. -/
def pyJoin (sep : String) (parts : List String) : String :=
  String.mk (List.intercalate sep.data (parts.map String.data))

/-! ## Ordered-dictionary operations

Python dictionaries preserve insertion order; assigning to an existing key
replaces the value in place, assigning to a fresh key appends. -/

/-- Python `d[k] = v` on an insertion-ordered dictionary. -/
def setKey {κ α : Type} [DecidableEq κ] (k : κ) (v : α) : List (κ × α) → List (κ × α)
  | [] => [(k, v)]
  | (k', v') :: rest => if k' = k then (k, v) :: rest else (k', v') :: setKey k v rest

/-- Python `d.get(k, dflt)`. -/
def lookupD {κ α : Type} [DecidableEq κ] (l : List (κ × α)) (k : κ) (dflt : α) : α :=
  match l with
  | [] => dflt
  | (k', v) :: rest => if k' = k then v else lookupD rest k dflt

/-! ## The embedded abstract syntax tree -/

/-- A literal constant (`ast.Constant`).  The deprecated `ast.Str` check of
the code is true exactly for the `str` alternative; the `.s` accessor used on
keyword values is defined for every alternative (it aliases `.value`). -/
inductive Const : Type where
  | str (s : String)
  | int (n : Int)
  | noneC
deriving DecidableEq

/-- Python truthiness of a constant value (`if path and method:`). -/
def constTruthy : Const → Bool
  | .str s => s ≠ ""
  | .int n => n ≠ 0
  | .noneC => false

/-- Python `str(value)` of a constant. -/
def strOfConst : Const → String
  | .str s => s
  | .int n => toString n
  | .noneC => "None"

/-- Expression nodes of the abstract syntax tree, restricted to the shapes
`api_docs.py` pattern-matches on.  A decorator call's keyword arguments are
pairs of the keyword name (`none` for `**kwargs`) and the value expression.
`tup` is `ast.Tuple` (the slice of a multi-parameter subscript); `other`
stands for any further expression kind, none of which has an `attr`, `id` or
`s` attribute or is matched by the code. -/
inductive Expr : Type where
  | name (id : String)
  | attr (value : Expr) (a : String)
  | call (func : Expr) (args : List Expr) (kws : List (Option String × Expr))
  | const (c : Const)
  | subscript (value : Expr) (slice : Expr)
  | tup (elts : List Expr)
  | other

/-- One declared parameter (`ast.arg`): its name and its type `ann`otation
(`arg.annotation` in the AST), if present. -/
structure Arg : Type where
  arg : String
  ann : Option Expr

/-- A function definition node (`ast.FunctionDef`) as the code reads it:
decorators in source order, the positional parameters `node.args.args`, the
return `ann`otation `node.returns`, and `ast.get_docstring(node)` (`none`
when the function has no docstring; `some ""` is possible for an empty
one and is falsy, as in Python). -/
structure FunctionDef : Type where
  name : String
  decorator_list : List Expr
  args : List Arg
  returns : Option Expr
  docstring : Option String

/-- Statement nodes, as far as the tree walk distinguishes them: class
definitions and function definitions with their bodies, and `other` for any
further statement (its body covers statements nested inside it, so that the
walk can reach definitions nested in compound statements). -/
inductive Stmt : Type where
  | classDef (name : String) (body : List Stmt)
  | functionDef (f : FunctionDef) (body : List Stmt)
  | other (body : List Stmt)

/-- Result of `ast.parse(code)`: either a `SyntaxError` (malformed source) or
a module with a statement body. -/
inductive SourceText : Type where
  | malformed
  | wellFormed (body : List Stmt)

/-! ## Docstring interpreter (`_parse_docstring`, lines 101-133) -/

/-- The four sections of a parsed docstring. -/
inductive Sec : Type where
  | description
  | parameters
  | returns
  | raises
deriving DecidableEq

/-- The structured result of `_parse_docstring` (the `sections` dictionary):
all four keys are always present; `parameters` is an insertion-ordered
dictionary. -/
structure ParsedDoc : Type where
  description : String
  parameters : List (String × String)
  returns : String
  raises : List String
deriving DecidableEq

/-- The empty `sections` dictionary the interpreter starts from. -/
def emptyDoc : ParsedDoc := ⟨"", [], "", []⟩

/-- Model of `re.match(r'\s*(\w+)\s*:\s*(.+)', line)` applied to an already
stripped line: an optional run of whitespace, a maximal nonempty run of word
characters (the name), optional whitespace, a colon, optional whitespace,
then a nonempty remainder (the description).  Because word characters,
whitespace and `:` are pairwise disjoint, the greedy match never needs to
backtrack on a stripped line, so this deterministic reading is exact. -/
def paramMatch (line : String) : Option (String × String) :=
  let cs := line.data.dropWhile pyWhite
  let name := cs.takeWhile fun c => c.isAlphanum || c = '_'
  let rest := cs.dropWhile fun c => c.isAlphanum || c = '_'
  match name, rest.dropWhile pyWhite with
  | [], _ => none
  | _, ':' :: afterColon =>
    let desc := afterColon.dropWhile pyWhite
    if desc = [] then none else some (String.mk name, String.mk desc)
  | _, _ => none

/-- One iteration of the docstring loop (lines 113-131): strip the line,
switch section on a header, otherwise add a nonempty line to the current
section (`description`/`returns` accumulate text plus a space, `parameters`
inserts a regex match into the dictionary, `raises` appends the line). -/
def docStep (st : Sec × ParsedDoc) (raw : String) : Sec × ParsedDoc :=
  let line := pyStrip raw
  if pyStartsWith (pyLower line) "parameters:" then (Sec.parameters, st.2)
  else if pyStartsWith (pyLower line) "returns:" then (Sec.returns, st.2)
  else if pyStartsWith (pyLower line) "raises:" then (Sec.raises, st.2)
  else if line ≠ "" then
    (st.1,
      match st.1 with
      | Sec.description => { st.2 with description := st.2.description ++ line ++ " " }
      | Sec.parameters =>
        match paramMatch line with
        | some nv => { st.2 with parameters := setKey nv.1 nv.2 st.2.parameters }
        | none => st.2
      | Sec.returns => { st.2 with returns := st.2.returns ++ line ++ " " }
      | Sec.raises => { st.2 with raises := st.2.raises ++ [line] })
  else st

/-- `_parse_docstring`: split on newlines, fold the loop from the
`description` section and the empty `sections` dictionary. -/
def parse_docstring (docstring : String) : ParsedDoc :=
  ((pySplit docstring '\n').foldl docStep (Sec.description, emptyDoc)).2

/-! ## Type-annotation renderer (`_get_type_hint`, lines 135-145) -/

/-- `_get_type_hint`: a name renders as its identifier, a subscript as
`value[slice]` with both parts rendered recursively, a constant as its
`str()`, and every other node (tuples of a multi-parameter generic,
attribute accesses, calls, ...) as the fallback `"Any"`. -/
def get_type_hint : Expr → String
  | .name id => id
  | .subscript v s => get_type_hint v ++ "[" ++ get_type_hint s ++ "]"
  | .const c => strOfConst c
  | _ => "Any"

/-! ## Decorator inspection and `_parse_endpoint` (lines 42-99) -/

/-- The mutable state of the decorator loop (lines 46-48): `path` holds the
Python value assigned from a decorator argument (`None` initially), `method`
the lower-cased attribute name, `auth_required` the marker flag. -/
structure DecState : Type where
  path : Option Const
  method : Option String
  auth_required : Bool
deriving DecidableEq

/-- The initial decorator-loop state. -/
def initDecState : DecState := ⟨none, none, false⟩

/-- The `.s` attribute access on a keyword value (line 60): every constant
node exposes `.s` (aliasing `.value`); any other node raises
`AttributeError`. -/
def dotS : Expr → Except Unit Const
  | .const c => .ok c
  | _ => .error ()

/-- The positional-argument loop (lines 55-57): each literal-string argument
overwrites `path`, so the last one wins; other arguments leave it unchanged. -/
def argsPath (path : Option Const) : List Expr → Option Const
  | [] => path
  | a :: rest =>
    argsPath (match a with | .const (.str s) => some (Const.str s) | _ => path) rest

/-- The keyword-argument loop (lines 58-60): each keyword named `path` has
its value's `.s` read, which raises for a non-constant value; the last such
keyword wins. -/
def kwPath (path : Option Const) : List (Option String × Expr) → Except Unit (Option Const)
  | [] => .ok path
  | kw :: rest =>
    if kw.1 = some "path" then
      match dotS kw.2 with
      | .ok v => kwPath (some v) rest
      | .error e => .error e
    else kwPath path rest

/-- One iteration of the decorator loop (lines 50-63).  A call whose callee
has an `attr` attribute (an attribute access) sets `method` and runs both
argument loops over `path`; a call whose callee is the bare name
`requires_auth` sets the auth flag; everything else (including non-call
decorators) is ignored. -/
def processDecorator (st : DecState) (d : Expr) : Except Unit DecState :=
  match d with
  | .call (.attr _ a) args kws =>
    match kwPath (argsPath st.path args) kws with
    | .ok p => .ok { st with method := some (pyLower a), path := p }
    | .error e => .error e
  | .call (.name id) _ _ =>
    .ok (if id = "requires_auth" then { st with auth_required := true } else st)
  | _ => .ok st

/-- The whole decorator loop. -/
def decLoop (st : DecState) : List Expr → Except Unit DecState
  | [] => .ok st
  | d :: rest =>
    match processDecorator st d with
    | .ok st' => decLoop st' rest
    | .error e => .error e

/-- Python truthiness of the `path` variable after the loop. -/
def optConstTruthy : Option Const → Bool
  | some c => constTruthy c
  | none => false

/-- Python truthiness of the `method` variable after the loop. -/
def optStrTruthy : Option String → Bool
  | some s => s ≠ ""
  | none => false

/-- A parameter record of an endpoint (lines 76-80). -/
structure ParamRec : Type where
  name : String
  type : Option String
  required : Bool
deriving DecidableEq

/-- The `description` attribute of an endpoint: `_parse_docstring`'s
dictionary when the function has a truthy docstring, the Python string `""`
otherwise (line 68).  Calling `.get` on the latter raises
`AttributeError`. -/
inductive DescOrStr : Type where
  | emptyStr
  | parsed (d : ParsedDoc)
deriving DecidableEq

/-- One extracted endpoint record (the `APIEndpoint` dataclass).  `path`
holds the Python value assigned from the decorator (a string in every
well-formed program); `response` is the one-key dictionary of lines 83-85,
`none` when empty. -/
structure APIEndpoint : Type where
  path : Const
  method : String
  description : DescOrStr
  parameters : List ParamRec
  response : Option String
  auth_required : Bool
deriving DecidableEq

/-- Record construction (lines 66-95) once `path` and `method` passed the
truthiness gate: docstring interpretation, parameters after the first
(`node.args.args[1:]`, line 72), rendered annotations, rendered return
type. -/
def mkEndpoint (f : FunctionDef) (p : Const) (m : String) (auth : Bool) : APIEndpoint :=
  { path := p
    method := m
    description :=
      match f.docstring with
      | some ds => if ds ≠ "" then DescOrStr.parsed (parse_docstring ds) else DescOrStr.emptyStr
      | none => DescOrStr.emptyStr
    parameters :=
      (f.args.drop 1).map fun a =>
        { name := a.arg, type := a.ann.map get_type_hint, required := true }
    response := f.returns.map get_type_hint
    auth_required := auth }

/-- The body of `_parse_endpoint` inside its `try` (lines 44-97): run the
decorator loop (which can raise through `.s`), then append a record exactly
when both `path` and `method` are truthy. -/
def parse_endpoint_core (f : FunctionDef) : Except Unit (Option APIEndpoint) :=
  match decLoop initDecState f.decorator_list with
  | .error e => .error e
  | .ok st =>
    if optConstTruthy st.path && optStrTruthy st.method then
      match st.path, st.method with
      | some p, some m => .ok (some (mkEndpoint f p m st.auth_required))
      | _, _ => .ok none
    else .ok none

/-- `_parse_endpoint`: the surrounding `except Exception` (line 98) turns any
raised error into a logged skip, so the caller sees at most one record and
never an exception.  The unused `class_name` parameter is dropped. -/
def parse_endpoint (f : FunctionDef) : Option APIEndpoint :=
  match parse_endpoint_core f with
  | .ok r => r
  | .error _ => none

/-! ## Tree walk and `parse_fastapi_app` (lines 24-40) -/

/-- Nodes a statement node exposes to the walk. -/
def childStmts : Stmt → List Stmt
  | .classDef _ body => body
  | .functionDef _ body => body
  | .other body => body

mutual

/-- Number of statement nodes in one statement's subtree. -/
def stmtSize : Stmt → Nat
  | .classDef _ body => 1 + stmtsSize body
  | .functionDef _ body => 1 + stmtsSize body
  | .other body => 1 + stmtsSize body

/-- Total number of statement nodes, used as walk fuel. -/
def stmtsSize : List Stmt → Nat
  | [] => 0
  | s :: rest => stmtSize s + stmtsSize rest

end

/-- Breadth-first walk over the statement tree, level by level, as
`ast.walk` visits nodes.  `fuel` bounds the number of levels; it is always
called with more fuel than the tree has nodes, hence levels, so the walk is
exhaustive. -/
def bfsWalk (fuel : Nat) (level : List Stmt) : List Stmt :=
  match fuel with
  | 0 => []
  | n + 1 =>
    match level with
    | [] => []
    | _ => level ++ bfsWalk n (level.flatMap childStmts)

/-- The functions a walked node dispatches to `_parse_endpoint`: a class
definition dispatches its directly nested function definitions (lines 36-40,
`_parse_router_class`; the class name it passes along is unused), a function
definition node dispatches itself (line 32). -/
def dispatchedFuns : Stmt → List FunctionDef
  | .classDef _ body =>
    body.filterMap fun t => match t with | .functionDef f _ => some f | _ => none
  | .functionDef f _ => [f]
  | .other _ => []

/-- The records a walked node contributes, in dispatch order. -/
def processWalkNode (s : Stmt) : List APIEndpoint :=
  (dispatchedFuns s).filterMap parse_endpoint

/-- The records of a whole walk. -/
def processAll : List Stmt → List APIEndpoint
  | [] => []
  | s :: rest => processWalkNode s ++ processAll rest

/-- `parse_fastapi_app`: on a `SyntaxError` the `except` at line 33 logs and
leaves the endpoint catalog unchanged; otherwise the walked records are
appended to it.  `_parse_endpoint` already catches every per-function error,
so nothing inside the walk can escape, and the function always returns
normally. -/
def parse_fastapi_app (endpoints : List APIEndpoint) (code : SourceText) : List APIEndpoint :=
  match code with
  | .malformed => endpoints
  | .wellFormed body => endpoints ++ processAll (bfsWalk (stmtsSize body + 1) body)

/-! ## OpenAPI emitter (`generate_openapi_spec`, lines 147-194) -/

/-- One entry of an operation's `parameters` list (lines 165-172). -/
structure OAParam : Type where
  name : String
  loc : String
  required : Bool
  schemaType : String
deriving DecidableEq

/-- One `paths[path][method]` value (lines 162-192): its summary, parameter
list, the canned 200-response schema type, and whether the bearer-security
requirement of lines 189-192 is attached. -/
structure Operation : Type where
  summary : String
  parameters : List OAParam
  responseType : String
  security : Bool
deriving DecidableEq

/-- The emitted OpenAPI document: the fixed envelope and the `paths`
dictionary, keyed by path and then by method. -/
structure OpenAPISpec : Type where
  openapi : String
  infoTitle : String
  infoVersion : String
  paths : List (Const × List (String × Operation))
deriving DecidableEq

/-- Python `'{name}' in endpoint.path` (line 167): a substring test on a
string path; on a non-string path value the `in` raises `TypeError`. -/
def pyInPath (needle : String) : Const → Except Unit Bool
  | .str s => .ok (pyInStr needle s)
  | _ => .error ()

/-- The parameter list comprehension (lines 164-174): each parameter's
location is `path` when `{name}` occurs in the path template, else `query`;
an absent or empty `type` yields the schema type `string`, otherwise the
lower-cased type. -/
def oaParams (path : Const) : List ParamRec → Except Unit (List OAParam)
  | [] => .ok []
  | p :: rest =>
    match pyInPath ("\x7b" ++ p.name ++ "\x7d") path with
    | .error e => .error e
    | .ok isIn =>
      match oaParams path rest with
      | .error e => .error e
      | .ok tail =>
        .ok ({ name := p.name
               loc := if isIn then "path" else "query"
               required := p.required
               schemaType :=
                 match p.type with
                 | some t => if t ≠ "" then pyLower t else "string"
                 | none => "string" } :: tail)

/-- The `.get('description', '')` access on an endpoint's description
(line 163 and line 213): fine on the dictionary, `AttributeError` on the
string `""`. -/
def descGet : DescOrStr → Except Unit ParsedDoc
  | .parsed d => .ok d
  | .emptyStr => .error ()

/-- The operation object built for one endpoint (lines 162-192). -/
def opOf (e : APIEndpoint) : Except Unit Operation :=
  match descGet e.description with
  | .error err => .error err
  | .ok d =>
    match oaParams e.path e.parameters with
    | .error err => .error err
    | .ok params =>
      .ok { summary := d.description
            parameters := params
            responseType := pyLower (e.response.getD "object")
            security := e.auth_required }

/-- The `paths` dictionary after the emitter's loop: for each endpoint in
catalog order, the path's inner dictionary gains (or overwrites) the method
key (lines 158-162). -/
def oaPathsLoop (acc : List (Const × List (String × Operation))) :
    List APIEndpoint → Except Unit (List (Const × List (String × Operation)))
  | [] => .ok acc
  | e :: rest =>
    match opOf e with
    | .error err => .error err
    | .ok op => oaPathsLoop (setKey e.path (setKey e.method op (lookupD acc e.path [])) acc) rest

/-- `generate_openapi_spec`: the fixed envelope plus the accumulated `paths`
dictionary.  The raised `AttributeError`/`TypeError` of an endpoint without
docstring dictionary or with a non-string path propagates (this method has
no `try`). -/
def generate_openapi_spec (endpoints : List APIEndpoint) : Except Unit OpenAPISpec :=
  match oaPathsLoop [] endpoints with
  | .error err => .error err
  | .ok ps =>
    .ok { openapi := "3.0.0"
          infoTitle := "API Documentation"
          infoVersion := "1.0.0"
          paths := ps }

/-! ## Markdown emitter (`generate_markdown_docs`, lines 196-242) -/

/-- Python `f"{x}"` of a parameter's `type` value: `None` renders as the
string `None` (line 225). -/
def pyShowOptStr : Option String → String
  | some s => s
  | none => "None"

/-- Python `f"{x}"` of the path value grouping keys (line 209). -/
def pyShowConst : Const → String := strOfConst

/-- Grouping step (lines 201-205): append the endpoint to its path's group,
creating the group at the end on first sight of the path. -/
def groupStep (groups : List (Const × List APIEndpoint)) (e : APIEndpoint) :
    List (Const × List APIEndpoint) :=
  match groups with
  | [] => [(e.path, [e])]
  | (k, v) :: rest => if k = e.path then (k, v ++ [e]) :: rest else (k, v) :: groupStep rest e

/-- The lines one endpoint contributes (lines 211-240): method heading,
summary, auth banner, parameter table, response block with its always-present
returns description, error list, separator. -/
def endpointBlock (d : ParsedDoc) (e : APIEndpoint) : List String :=
  (["### " ++ pyUpper e.method ++ "\n", d.description ++ "\n"]
      ++ (if e.auth_required then ["**Requires Authentication**\n"] else [])
      ++ (if e.parameters ≠ [] then
            ["\n#### Parameters\n",
             "| Name | Type | Required | Description |",
             "|------|------|----------|-------------|"]
            ++ e.parameters.map (fun p =>
                 "| " ++ p.name ++ " | " ++ pyShowOptStr p.type ++ " | "
                   ++ (if p.required then "Yes" else "No") ++ " | "
                   ++ lookupD d.parameters p.name "" ++ " |")
          else [])
      ++ (if e.response.isSome then
            ["\n#### Response\n", "Type: " ++ e.response.getD "object" ++ "\n",
             "Description: " ++ d.returns ++ "\n"]
          else [])
      ++ (if d.raises ≠ [] then
            "\n#### Errors\n" :: d.raises.map (fun err => "- " ++ err ++ "\n")
          else [])
      ++ ["\n---\n"])

/-- One endpoint's contribution as the emitter computes it: the `.get` of
line 213 raises on an endpoint whose description is the string `""`, else
the block of lines above is produced. -/
def endpointLines (e : APIEndpoint) : Except Unit (List String) :=
  match descGet e.description with
  | .error err => .error err
  | .ok d => .ok (endpointBlock d e)

/-- The concatenated blocks of one path group's endpoints, in insertion
order; the first raised error propagates. -/
def blocksOf : List APIEndpoint → Except Unit (List String)
  | [] => .ok []
  | e :: rest =>
    match endpointLines e with
    | .error err => .error err
    | .ok b =>
      match blocksOf rest with
      | .error err => .error err
      | .ok bs => .ok (b ++ bs)

/-- The lines of one path group (lines 208-240): the path heading then each
endpoint's block in insertion order. -/
def pathLines (path : Const) (es : List APIEndpoint) : Except Unit (List String) :=
  match blocksOf es with
  | .error err => .error err
  | .ok blocks => .ok (("## " ++ pyShowConst path ++ "\n") :: blocks)

/-- The concatenated lines of all path groups, in first-seen order. -/
def sectionsOf : List (Const × List APIEndpoint) → Except Unit (List String)
  | [] => .ok []
  | g :: rest =>
    match pathLines g.1 g.2 with
    | .error err => .error err
    | .ok ls =>
      match sectionsOf rest with
      | .error err => .error err
      | .ok more => .ok (ls ++ more)

/-- The whole `docs` list of `generate_markdown_docs`: the banner, then each
path group's lines, groups in first-seen order. -/
def markdownLines (endpoints : List APIEndpoint) : Except Unit (List String) :=
  match sectionsOf (endpoints.foldl groupStep []) with
  | .error err => .error err
  | .ok secs => .ok ("# API Documentation\n\n" :: secs)

/-- `generate_markdown_docs`: the lines joined with newlines. -/
def generate_markdown_docs (endpoints : List APIEndpoint) : Except Unit String :=
  match markdownLines endpoints with
  | .error err => .error err
  | .ok ls => .ok (pyJoin "\n" ls)

/-! ## Re-parsing a rendered annotation (for the round-trip property)

The round-trip property speaks of re-parsing the string produced by
`_get_type_hint` with `ast.parse` and rendering the parse result again.
`ast.parse` is the Python standard library, not code of this repository, so
the fragment of its expression grammar that rendered annotation strings
exercise is modelled here from the spec's words.  The fragment covers
identifier and unsigned-decimal atoms, attribute (`.name`), subscript
(`[expr]`) and comma (tuple) forms — so strings such as `a.b`, `a,b` and
`5`, which `ast.parse` accepts and whose parse trees `_get_type_hint`
re-renders as `Any` (or as the numeral), are represented faithfully.
`none` stands for "no parse in the modelled fragment": on every rendering
of an identifier/subscript annotation and on every concrete string this
development evaluates the re-parse at, that verdict coincides with
`ast.parse`'s (in particular `a b` is a `SyntaxError` for both).  Outside
the fragment (parenthesised or operator expressions, floats, token-level
whitespace — forms reachable only through the text of string-constant
annotations that no theorem below re-parses) the model is conservative and
answers `none`. -/

/-- Continuation character of a Python identifier (ASCII). -/
def isIdentChar (c : Char) : Bool := c.isAlphanum || c = '_'

/-- Head character of a Python identifier (ASCII). -/
def isIdentStart (c : Char) : Bool := c.isAlpha || c = '_'

/-- Value of a run of decimal digits. -/
def digitsVal (cs : List Char) : Nat :=
  cs.foldl (fun n c => n * 10 + (c.toNat - 48)) 0

mutual

/-- Modelled from the spec: an atom of `ast.parse`'s expression grammar on
rendered annotation strings — an identifier (a `Name` node; a keyword-like
identifier such as `None` is kept as a `Name`, where CPython builds an
equal-rendering `Constant`, and cannot arise from real source anyway) or an
unsigned decimal numeral without leading zeros (a `Constant` node) —
followed by its attribute/subscript suffixes.  `fuel` bounds the recursion
depth and is chosen larger than any parse of the input can need. -/
def parseAtomSub : Nat → List Char → Option (Expr × List Char)
  | 0, _ => none
  | Nat.succ f, cs =>
    match cs.takeWhile isIdentChar with
    | [] => none
    | c :: rest0 =>
      if isIdentStart c then
        parseSubSuffix f (Expr.name (String.mk (c :: rest0))) (cs.dropWhile isIdentChar)
      else if (c :: rest0).all Char.isDigit && (c != '0' || rest0.isEmpty) then
        parseSubSuffix f (Expr.const (Const.int (Int.ofNat (digitsVal (c :: rest0)))))
          (cs.dropWhile isIdentChar)
      else none

/-- Modelled from the spec: after an atom, each `[inner]` group wraps the
expression parsed so far in one more `Subscript` node and each
`.identifier` in one more `Attribute` node, as `ast.parse` builds
left-nested suffix chains; any other character ends the expression. -/
def parseSubSuffix : Nat → Expr → List Char → Option (Expr × List Char)
  | 0, _, _ => none
  | Nat.succ _, e, [] => some (e, [])
  | Nat.succ f, e, c :: rest =>
    if c = '[' then
      match parseExprC f rest with
      | some (inner, rest') =>
        match rest' with
        | [] => none
        | c' :: rest'' =>
          if c' = ']' then parseSubSuffix f (Expr.subscript e inner) rest'' else none
      | none => none
    else if c = '.' then
      match rest.takeWhile isIdentChar with
      | [] => none
      | c2 :: t2 =>
        if isIdentStart c2 then
          parseSubSuffix f (Expr.attr e (String.mk (c2 :: t2))) (rest.dropWhile isIdentChar)
        else none
    else some (e, c :: rest)

/-- Modelled from the spec: comma-separated expressions at one level
collect into a single flat `Tuple` node (trailing commas included), as
`ast.parse` does in annotation position; a lone expression stays itself. -/
def parseExprC : Nat → List Char → Option (Expr × List Char)
  | 0, _ => none
  | Nat.succ f, cs =>
    match parseAtomSub f cs with
    | none => none
    | some (e, rest) =>
      match rest with
      | ',' :: rest' =>
        match rest' with
        | [] => some (Expr.tup [e], [])
        | ']' :: _ => some (Expr.tup [e], rest')
        | _ =>
          match parseExprC f rest' with
          | some (e2, rest'') =>
            some ((match e2 with
                   | Expr.tup es => Expr.tup (e :: es)
                   | _ => Expr.tup [e, e2]), rest'')
          | none => none
      | _ => some (e, rest)

end

/-- Modelled from the spec: re-parsing a rendered string as a fresh
annotation: the whole string must be consumed by one (possibly tuple)
expression of the modelled fragment, else the parse fails. -/
def reparseAnn (s : String) : Option Expr :=
  match parseExprC (2 * s.data.length + 4) s.data with
  | some (e, []) => some e
  | _ => none

/-- A nonempty ASCII identifier. -/
def identOK (s : String) : Bool :=
  match s.data with
  | [] => false
  | c :: _ => isIdentStart c && s.data.all isIdentChar

/-- Annotations built from identifier names and subscripts over them: the
nested-generic shapes the round-trip sentence of the spec quantifies over. -/
def goodAnn : Expr → Bool
  | .name a => identOK a
  | .subscript (.name a) s => identOK a && goodAnn s
  | _ => false

/-- Fuel a parse of a good annotation's rendering can need. -/
def bndA : Expr → Nat
  | .subscript _ s => bndA s + 3
  | _ => 2

/-! ## Positional section assignment (the claim's reading of the docstring
interpreter) -/

/-- The header test of one stripped line, mirroring the `elif` chain. -/
def headerOf (line : String) : Option Sec :=
  if pyStartsWith (pyLower line) "parameters:" then some Sec.parameters
  else if pyStartsWith (pyLower line) "returns:" then some Sec.returns
  else if pyStartsWith (pyLower line) "raises:" then some Sec.raises
  else none

/-- Purely positional section assignment, defined from the claim's words:
each non-header line (stripped) is tagged with the section opened by the
last header line before it; lines before any header are tagged
`description`; header lines themselves are consumed. -/
def assignSecs (cur : Sec) : List String → List (Sec × String)
  | [] => []
  | raw :: rest =>
    match headerOf (pyStrip raw) with
    | some h => assignSecs h rest
    | none => (cur, pyStrip raw) :: assignSecs cur rest

/-- The contribution one tagged line makes to its section: text sections
accumulate the line plus a space, the parameter section inserts a regex
match into the dictionary, the raises section appends the line; empty lines
contribute nothing. -/
def addLine (d : ParsedDoc) (sl : Sec × String) : ParsedDoc :=
  if sl.2 = "" then d
  else
    match sl.1 with
    | Sec.description => { d with description := d.description ++ sl.2 ++ " " }
    | Sec.parameters =>
      match paramMatch sl.2 with
      | some nv => { d with parameters := setKey nv.1 nv.2 d.parameters }
      | none => d
    | Sec.returns => { d with returns := d.returns ++ sl.2 ++ " " }
    | Sec.raises => { d with raises := d.raises ++ [sl.2] }

/-- The docstring interpreter as the claim describes it: assign each line
its positional section, then aggregate the contributions in order. -/
def positionalDoc (docstring : String) : ParsedDoc :=
  (assignSecs Sec.description (pySplit docstring '\n')).foldl addLine emptyDoc

/-! ## Characterisations of the decorator loop (for the last-write claims) -/

/-- A decorator the code recognises as a route registration: a call whose
callee is an attribute access. -/
def isRouteDecorator : Expr → Bool
  | .call (.attr _ _) _ _ => true
  | _ => false

/-- True when no decorator of the function is a route registration. -/
def noRouteDecorators (f : FunctionDef) : Bool :=
  f.decorator_list.all fun d => !isRouteDecorator d

/-- The attribute name of the last attribute-callee call decorator. -/
def lastAttrName : List Expr → Option String
  | [] => none
  | d :: rest =>
    match lastAttrName rest with
    | some a => some a
    | none => match d with | .call (.attr _ a) _ _ => some a | _ => none

/-- The last positional literal-string argument. -/
def lastStrLit : List Expr → Option String
  | [] => none
  | a :: rest =>
    match lastStrLit rest with
    | some s => some s
    | none => match a with | .const (.str s) => some s | _ => none

/-- The constant value of the last keyword named `path` whose value is a
constant (when the keyword loop succeeds, every `path` keyword is one). -/
def lastConstPathKw : List (Option String × Expr) → Option Const
  | [] => none
  | kw :: rest =>
    match lastConstPathKw rest with
    | some c => some c
    | none =>
      if kw.1 = some "path" then
        (match dotS kw.2 with | .ok c => some c | .error _ => none)
      else none

/-- True when the decorator writes a `path` value at all: an attribute-callee
call with a literal-string positional argument or a keyword named `path`. -/
def pathWrites : Expr → Bool
  | .call (.attr _ _) args kws =>
    (args.any fun a => match a with | .const (.str _) => true | _ => false)
      || (kws.any fun kw => kw.1 = some "path")
  | _ => false

/-- The parameter entry built for one record parameter when the endpoint's
path is the string `ps` (the comprehension body of lines 165-172). -/
def oaParamStr (ps : String) (p : ParamRec) : OAParam :=
  { name := p.name
    loc := if pyInStr ("\x7b" ++ p.name ++ "\x7d") ps then "path" else "query"
    required := p.required
    schemaType :=
      match p.type with
      | some t => if t ≠ "" then pyLower t else "string"
      | none => "string" }

/-- The operation object built for an endpoint with dictionary description
`d` and string path `ps`. -/
def opStr (d : ParsedDoc) (ps : String) (e : APIEndpoint) : Operation :=
  { summary := d.description
    parameters := e.parameters.map (oaParamStr ps)
    responseType := pyLower (e.response.getD "object")
    security := e.auth_required }

/-- Projection of an emitter result for closed statements. -/
def okOp (x : Except Unit Operation) : Operation :=
  match x with
  | .ok v => v
  | .error _ => ⟨"", [], "", false⟩

/-- Projection of a line-list result for closed statements. -/
def okStrs (x : Except Unit (List String)) : List String :=
  match x with
  | .ok v => v
  | .error _ => []

/-! ## Concrete fixtures used by witnesses and counterexamples -/

/-- A function with two route decorators, the first carrying two positional
literal-string arguments (`@router.get("/a", "/b")`), the second carrying
none (`@router.post()`). -/
def fC3 : FunctionDef :=
  { name := "h"
    decorator_list :=
      [Expr.call (Expr.attr (Expr.name "router") "get")
        [Expr.const (Const.str "/a"), Expr.const (Const.str "/b")] [],
       Expr.call (Expr.attr (Expr.name "router") "post") [] []]
    args := [], returns := none, docstring := none }

/-- The multi-parameter generic annotation `Dict[str, List[int]]` as the
syntax tree represents it: the subscript's slice is a tuple node. -/
def dictEx : Expr :=
  Expr.subscript (Expr.name "Dict")
    (Expr.tup [Expr.name "str", Expr.subscript (Expr.name "List") (Expr.name "int")])

/-- The nested single-parameter generic `List[List[int]]`. -/
def nestedEx : Expr :=
  Expr.subscript (Expr.name "List") (Expr.subscript (Expr.name "List") (Expr.name "int"))

/-- An endpoint whose one parameter has no type annotation, with a parsed
(empty) docstring dictionary. -/
def eC7 : APIEndpoint :=
  { path := Const.str "/x"
    method := "get"
    description := DescOrStr.parsed emptyDoc
    parameters := [{ name := "x", type := none, required := true }]
    response := none
    auth_required := false }

/-- A function whose route decorator carries a keyword named `path` whose
value is a variable, not a literal (`@router.get("/a", path=dynamic)`). -/
def fC8 : FunctionDef :=
  { name := "g"
    decorator_list :=
      [Expr.call (Expr.attr (Expr.name "router") "get")
        [Expr.const (Const.str "/a")] [(some "path", Expr.name "dynamic")]]
    args := [], returns := none, docstring := none }

/-- The same function without the malformed keyword. -/
def fC8b : FunctionDef :=
  { name := "g"
    decorator_list :=
      [Expr.call (Expr.attr (Expr.name "router") "get")
        [Expr.const (Const.str "/a")] []]
    args := [], returns := none, docstring := none }

/-- A module body with no route decorator anywhere: a helper class whose
method carries only a bare-name decorator, a plain function with an
auth-marker call decorator, and a compound statement hiding a nested
undecorated function. -/
def bodyC2 : List Stmt :=
  [Stmt.classDef "Helpers"
     [Stmt.functionDef
        { name := "util", decorator_list := [Expr.name "staticmethod"],
          args := [], returns := none, docstring := none } [],
      Stmt.other []],
   Stmt.functionDef
     { name := "check", decorator_list := [Expr.call (Expr.name "requires_auth") [] []],
       args := [⟨"self", none⟩], returns := none, docstring := none }
     [Stmt.other [Stmt.functionDef
        { name := "inner", decorator_list := [], args := [], returns := none,
          docstring := none } []]]]

/-- A top-level route handler whose first declared parameter is a real
request parameter, not a receiver. -/
def fC10 : FunctionDef :=
  { name := "read_item"
    decorator_list :=
      [Expr.call (Expr.attr (Expr.name "app") "get")
        [Expr.const (Const.str "/items")] []]
    args := [⟨"request", some (Expr.name "Request")⟩, ⟨"item_id", some (Expr.name "int")⟩]
    returns := none
    docstring := none }

/-- The record the extractor produces for `fC10`. -/
def rC10 : APIEndpoint :=
  { path := Const.str "/items"
    method := "get"
    description := DescOrStr.emptyStr
    parameters := [{ name := "item_id", type := some "int", required := true }]
    response := none
    auth_required := false }

/-- Parsed docstring of the first duplicate handler. -/
def dDup1 : ParsedDoc := { emptyDoc with description := "First handler. " }

/-- Parsed docstring of the second duplicate handler. -/
def dDup2 : ParsedDoc := { emptyDoc with description := "Second handler. " }

/-- First of two records sharing path and method (`get /dup`). -/
def rDup1 : APIEndpoint :=
  { path := Const.str "/dup"
    method := "get"
    description := DescOrStr.parsed dDup1
    parameters := []
    response := none
    auth_required := false }

/-- Second of two records sharing path and method. -/
def rDup2 : APIEndpoint :=
  { path := Const.str "/dup"
    method := "get"
    description := DescOrStr.parsed dDup2
    parameters := []
    response := none
    auth_required := false }

/-- The parameter record of `eC7`. -/
def pC7 : ParamRec := { name := "x", type := none, required := true }

/-- The decorator-loop state after `fC3`'s decorators. -/
def stC3 : DecState := ⟨some (Const.str "/b"), some "post", false⟩

/-- A well-typed nested generic used to witness the round-trip theorem. -/
def eG : Expr :=
  Expr.subscript (Expr.name "List") (Expr.subscript (Expr.name "List") (Expr.name "int"))

/-- Nesting depth of subscripts along the slice, the measure the round-trip
induction recurses on. -/
def subDepth : Expr → Nat
  | .subscript _ s => subDepth s + 1
  | _ => 0

/-! ## Helper lemmas -/

/-- One docstring-loop step factored through the positional header test and
the per-line contribution. -/
theorem docStep_eq (st : Sec × ParsedDoc) (raw : String) :
    docStep st raw =
      match headerOf (pyStrip raw) with
      | some h => (h, st.2)
      | none => (st.1, addLine st.2 (st.1, pyStrip raw)) := by
  unfold docStep headerOf addLine
  generalize pyStrip raw = line
  by_cases h1 : pyStartsWith (pyLower line) "parameters:" = true
  · simp [h1]
  by_cases h2 : pyStartsWith (pyLower line) "returns:" = true
  · simp [h1, h2]
  by_cases h3 : pyStartsWith (pyLower line) "raises:" = true
  · simp [h1, h2, h3]
  simp only [h1, h2, h3, if_false, Bool.false_eq_true, ite_false]
  by_cases h4 : line = ""
  · subst h4; simp
  · simp [h4]

/-- The stateful docstring fold equals positional assignment followed by
aggregation, from any starting section and accumulator. -/
theorem foldl_docStep_eq (lines : List String) :
    ∀ (cur : Sec) (acc : ParsedDoc),
      (lines.foldl docStep (cur, acc)).2 = (assignSecs cur lines).foldl addLine acc := by
  induction lines with
  | nil => intro cur acc; rfl
  | cons raw rest ih =>
    intro cur acc
    rw [List.foldl_cons, docStep_eq]
    unfold assignSecs
    cases h : headerOf (pyStrip raw) with
    | some hsec => simpa using ih hsec acc
    | none => simpa using ih cur (addLine acc (cur, pyStrip raw))

/-! ## Claim C6 -/

/-- C6: the docstring interpreter's section assignment is purely positional:
every docstring parses to exactly what positional assignment gives — each
non-header line is tagged with the section opened by the last header before
it (`parameters:` / `returns:` / `raises:`, case-insensitive at the start of
the trimmed line), lines before the first header are tagged `description`,
and the tagged lines are then aggregated into their sections in order.  The
spec's worked example is verified verbatim as the second conjunct. -/
theorem C6_positional_sections :
    (∀ docstring, parse_docstring docstring = positionalDoc docstring) ∧
    parse_docstring "Does X.\nParameters:\nfoo: the foo value\nReturns:\nThe result.\n" =
      { description := "Does X. ", parameters := [("foo", "the foo value")],
        returns := "The result. ", raises := [] } := by
  constructor
  · intro docstring
    unfold parse_docstring positionalDoc
    exact foldl_docStep_eq (pySplit docstring '\n') Sec.description emptyDoc
  · decide

/-- Closed form of `parse_endpoint`: the caught decorator-loop error yields
no record, and otherwise a record is built exactly under the truthiness
gate. -/
theorem parse_endpoint_eq (f : FunctionDef) :
    parse_endpoint f =
      match decLoop initDecState f.decorator_list with
      | .error _ => none
      | .ok st =>
        if optConstTruthy st.path && optStrTruthy st.method then
          match st.path, st.method with
          | some p, some m => some (mkEndpoint f p m st.auth_required)
          | _, _ => none
        else none := by
  unfold parse_endpoint parse_endpoint_core
  cases decLoop initDecState f.decorator_list with
  | error e => rfl
  | ok st =>
    by_cases hb : (optConstTruthy st.path && optStrTruthy st.method) = true
    · simp only [hb, if_true]
      cases st.path <;> cases st.method <;> rfl
    · simp only [Bool.not_eq_true] at hb
      simp [hb]

/-- Record existence depends only on the decorator-loop outcome and the
truthiness gate. -/
theorem parse_endpoint_isSome (f : FunctionDef) :
    (parse_endpoint f).isSome =
      (match decLoop initDecState f.decorator_list with
       | .error _ => false
       | .ok st => optConstTruthy st.path && optStrTruthy st.method) := by
  rw [parse_endpoint_eq]
  cases decLoop initDecState f.decorator_list with
  | error e => rfl
  | ok st =>
    cases hb : optConstTruthy st.path && optStrTruthy st.method with
    | false => simp [hb]
    | true =>
      obtain ⟨h1, h2⟩ := (Bool.and_eq_true _ _).mp hb
      cases hp : st.path with
      | none => rw [hp] at h1; simp [optConstTruthy] at h1
      | some p =>
        cases hm : st.method with
        | none => rw [hm] at h2; simp [optStrTruthy] at h2
        | some m =>
          rw [hp] at h1
          rw [hm] at h2
          simp only [hp, hm]
          simp [h1, h2]

/-! ## Claim C1 -/

/-- C1: for every function definition visited during parse, a record is
appended to the catalog if and only if the decorator inspection ran to
completion and determined a truthy (non-empty) `path` and a truthy `method`;
a function for which either is missing yields no record, and no error is
raised (`parse_endpoint` is total: the per-function handler turns any raised
error into a skip). -/
theorem C1_record_iff (f : FunctionDef) :
    (∃ r, parse_endpoint f = some r) ↔
      ∃ st, decLoop initDecState f.decorator_list = Except.ok st ∧
        optConstTruthy st.path = true ∧ optStrTruthy st.method = true := by
  rw [parse_endpoint_eq]
  cases h : decLoop initDecState f.decorator_list with
  | error e => simp
  | ok st =>
    simp only [Except.ok.injEq]
    cases hb : optConstTruthy st.path && optStrTruthy st.method with
    | false =>
      simp only [Bool.false_eq_true, if_false]
      constructor
      · rintro ⟨r, hr⟩; cases hr
      · rintro ⟨st', hst', h1, h2⟩
        cases hst'
        rw [h1, h2] at hb
        cases hb
    | true =>
      obtain ⟨h1, h2⟩ := (Bool.and_eq_true _ _).mp hb
      cases hp : st.path with
      | none => rw [hp] at h1; simp [optConstTruthy] at h1
      | some p =>
        cases hm : st.method with
        | none => rw [hm] at h2; simp [optStrTruthy] at h2
        | some m =>
          simp only [hb, if_true]
          constructor
          · intro _
            exact ⟨st, rfl, h1, h2⟩
          · intro _
            exact ⟨mkEndpoint f p m st.auth_required, rfl⟩

/-! ## Claim C4 -/

/-- C4 counterexample: rendering `Dict[str, List[int]]` does NOT produce the
string `Dict[str, List[int]]` the claim promises.  The slice of a
multi-parameter subscript is a tuple node, which the renderer's fallback
turns into `Any`, so the result is `Dict[Any]`. -/
theorem C4_counterexample :
    get_type_hint dictEx = "Dict[Any]" ∧ get_type_hint dictEx ≠ "Dict[str, List[int]]" := by
  decide

/-- C4 as amended: the renderer is total and renders a subscripted reference
as `Outer[Inner]`, both parts recursively by the same function, so
arbitrarily nested single-parameter generics render faithfully
(`List[List[int]]` → `List[List[int]]`); but the bracketed parameter list of
a multi-parameter generic is one tuple node, which renders by the fallback
as `Any`: `Dict[str, List[int]]` renders as `Dict[Any]`. -/
theorem C4_renderer_recursion :
    (∀ v s, get_type_hint (Expr.subscript v s) =
      get_type_hint v ++ "[" ++ get_type_hint s ++ "]") ∧
    (∀ es, get_type_hint (Expr.tup es) = "Any") ∧
    get_type_hint nestedEx = "List[List[int]]" ∧
    get_type_hint dictEx = "Dict[Any]" := by
  refine ⟨fun v s => rfl, fun es => rfl, by decide, by decide⟩

/-! ## Claim C8 -/

/-- C8 counterexample: the function `fC8` carries
`@router.get("/a", path=dynamic)` — path `"/a"` and method `get` are
determined, and the claim says the malformed keyword piece is omitted and
the record still produced.  The code instead lets `kw.value.s` raise
`AttributeError`, caught by the per-function handler, so the whole record is
dropped; the same decorator without the malformed keyword (`fC8b`) does
produce the record. -/
theorem C8_counterexample :
    parse_endpoint fC8 = none ∧
    (parse_endpoint fC8b).map (fun r => (r.path, r.method)) =
      some (Const.str "/a", "get") := by
  decide

/-- C8 as amended: an unexpected structural shape inside the decorator
arguments aborts the WHOLE record, not just the failing piece — when the
decorator loop raises, the per-function handler catches it and the function
yields no record (first conjunct; no error propagates, `parse_endpoint` is
total).  Annotation shapes, by contrast, can never abort extraction: the
renderer is total with an `Any` fallback, and whether a record is produced
depends only on the decorator list (second conjunct). -/
theorem C8_error_containment :
    (∀ f, decLoop initDecState f.decorator_list = Except.error () →
      parse_endpoint f = none) ∧
    (∀ f g : FunctionDef, f.decorator_list = g.decorator_list →
      (parse_endpoint f).isSome = (parse_endpoint g).isSome) := by
  constructor
  · intro f h
    unfold parse_endpoint parse_endpoint_core
    rw [h]
  · intro f g h
    rw [parse_endpoint_isSome, parse_endpoint_isSome, h]

/-- C8 witness: the amended theorem applied to the concrete malformed
decorator `@router.get("/a", path=dynamic)`. -/
theorem C8_error_containment_witness : parse_endpoint fC8 = none :=
  C8_error_containment.1 fC8 rfl

/-! ## Claim C10 -/

/-- C10: every produced record drops exactly the first declared positional
parameter, unconditionally — `node.args.args[1:]` is sliced whether or not
the function is a method, and a top-level function goes through the very
same extractor during the walk (second conjunct), so a top-level handler's
first real parameter never appears in the record. -/
theorem C10_skip_first_param :
    (∀ f r, parse_endpoint f = some r →
      r.parameters.map ParamRec.name = (f.args.drop 1).map Arg.arg) ∧
    (∀ f, parse_fastapi_app [] (SourceText.wellFormed [Stmt.functionDef f []]) =
      (parse_endpoint f).toList) := by
  constructor
  · intro f r h
    rw [parse_endpoint_eq] at h
    cases hd : decLoop initDecState f.decorator_list with
    | error e => simp only [hd] at h; cases h
    | ok st =>
      simp only [hd] at h
      by_cases hb : (optConstTruthy st.path && optStrTruthy st.method) = true
      · rw [if_pos hb] at h
        cases hp : st.path with
        | none => rw [hp] at h; cases hm : st.method <;> rw [hm] at h <;> cases h
        | some p =>
          cases hm : st.method with
          | none => rw [hp, hm] at h; cases h
          | some m =>
            rw [hp, hm] at h
            cases h
            simp [mkEndpoint, List.map_map]
            rfl
      · rw [if_neg hb] at h; cases h
  · intro f
    show [] ++ processAll (bfsWalk (stmtsSize [Stmt.functionDef f []] + 1) [Stmt.functionDef f []]) = _
    simp only [stmtsSize, childStmts, List.nil_append]
    rw [show stmtSize (Stmt.functionDef f []) + 0 + 1 = 2 from by simp [stmtSize, stmtsSize]]
    simp only [bfsWalk, List.flatMap, childStmts]
    simp [processAll, processWalkNode, dispatchedFuns, List.filterMap]
    cases parse_endpoint f <;> simp

/-- Decorators that are not route registrations never touch `path` or
`method` and never raise. -/
theorem decLoop_noRoute (ds : List Expr) :
    ∀ st : DecState, (∀ d ∈ ds, isRouteDecorator d = false) →
      ∃ b, decLoop st ds = Except.ok ⟨st.path, st.method, b⟩ := by
  induction ds with
  | nil => intro st _; exact ⟨st.auth_required, rfl⟩
  | cons d rest ih =>
    intro st h
    have hd : isRouteDecorator d = false := h d (List.mem_cons_self d rest)
    have hrest : ∀ d' ∈ rest, isRouteDecorator d' = false :=
      fun d' hm => h d' (List.mem_cons_of_mem d hm)
    cases d with
    | call func args kws =>
      cases func with
      | attr v a => simp [isRouteDecorator] at hd
      | name id =>
        show ∃ b, decLoop (if id = "requires_auth" then _ else st) rest = _
        by_cases hid : id = "requires_auth"
        · rw [if_pos hid]
          exact ih _ hrest
        · rw [if_neg hid]
          exact ih st hrest
      | call f' a' k' => exact ih st hrest
      | const c => exact ih st hrest
      | subscript v s => exact ih st hrest
      | tup es => exact ih st hrest
      | other => exact ih st hrest
    | name id => exact ih st hrest
    | attr v a => exact ih st hrest
    | const c => exact ih st hrest
    | subscript v s => exact ih st hrest
    | tup es => exact ih st hrest
    | other => exact ih st hrest

/-- A function with no route decorator yields no record. -/
theorem parse_endpoint_noRoute (f : FunctionDef) :
    noRouteDecorators f = true → parse_endpoint f = none := by
  intro h
  unfold noRouteDecorators at h
  rw [List.all_eq_true] at h
  have h' : ∀ d ∈ f.decorator_list, isRouteDecorator d = false := by
    intro d hm
    have := h d hm
    simpa using this
  obtain ⟨b, hb⟩ := decLoop_noRoute f.decorator_list initDecState h'
  rw [parse_endpoint_eq, hb]
  rfl

/-- An all-skipping walk contributes nothing. -/
theorem processAll_nil (L : List Stmt) :
    (∀ s ∈ L, processWalkNode s = []) → processAll L = [] := by
  induction L with
  | nil => intro _; rfl
  | cons s rest ih =>
    intro h
    show processWalkNode s ++ processAll rest = []
    rw [h s (List.mem_cons_self s rest), ih (fun t ht => h t (List.mem_cons_of_mem s ht))]
    rfl

/-- A node none of whose dispatched functions has a route decorator
contributes nothing. -/
theorem processWalkNode_nil (s : Stmt) :
    (∀ f ∈ dispatchedFuns s, noRouteDecorators f = true) → processWalkNode s = [] := by
  intro h
  unfold processWalkNode
  exact List.filterMap_eq_nil_iff.mpr fun f hf => parse_endpoint_noRoute f (h f hf)

/-! ## Claim C2 -/

/-- C2: the parse entry point never propagates an exception — it is a total
function of the embedded parse result, returning the catalog unchanged on a
`SyntaxError` (first conjunct), leaving an initially empty catalog empty
whenever no function visited by the walk carries a recognizable route
decorator (an attribute-callee call; second conjunct), and in general only
ever appending to the catalog it was given (third conjunct). -/
theorem C2_parse_total :
    (∀ cat, parse_fastapi_app cat SourceText.malformed = cat) ∧
    (∀ body,
      (∀ s ∈ bfsWalk (stmtsSize body + 1) body,
        ∀ f ∈ dispatchedFuns s, noRouteDecorators f = true) →
      parse_fastapi_app [] (SourceText.wellFormed body) = []) ∧
    (∀ cat code, ∃ appended, parse_fastapi_app cat code = cat ++ appended) := by
  refine ⟨fun cat => rfl, fun body h => ?_, fun cat code => ?_⟩
  · show [] ++ processAll _ = []
    rw [List.nil_append]
    exact processAll_nil _ fun s hs => processWalkNode_nil s (h s hs)
  · cases code with
    | malformed => exact ⟨[], (List.append_nil cat).symm⟩
    | wellFormed body => exact ⟨_, rfl⟩

/-- C2 witness: a module with a helper class, a bare-name-decorated method,
an auth-marker-decorated plain function and a nested undecorated function
leaves the catalog empty. -/
theorem C2_parse_total_witness :
    parse_fastapi_app [] (SourceText.wellFormed bodyC2) = [] :=
  C2_parse_total.2.1 bodyC2 (by decide)

/-- A route decorator is a call whose callee is an attribute access. -/
theorem isRoute_shape (d : Expr) (h : isRouteDecorator d = true) :
    ∃ v a args kws, d = Expr.call (Expr.attr v a) args kws := by
  cases d with
  | call func args kws =>
    cases func with
    | attr v a => exact ⟨v, a, args, kws, rfl⟩
    | name id => simp [isRouteDecorator] at h
    | call f1 a1 k1 => simp [isRouteDecorator] at h
    | const c => simp [isRouteDecorator] at h
    | subscript v s => simp [isRouteDecorator] at h
    | tup es => simp [isRouteDecorator] at h
    | other => simp [isRouteDecorator] at h
  | name id => simp [isRouteDecorator] at h
  | attr v a => simp [isRouteDecorator] at h
  | const c => simp [isRouteDecorator] at h
  | subscript v s => simp [isRouteDecorator] at h
  | tup es => simp [isRouteDecorator] at h
  | other => simp [isRouteDecorator] at h

/-- Unfolding equation of `lastStrLit` on a cons cell. -/
theorem lastStrLit_cons (a : Expr) (rest : List Expr) :
    lastStrLit (a :: rest) =
      match lastStrLit rest with
      | some s => some s
      | none => match a with | .const (.str s) => some s | _ => none := rfl

/-- Unfolding equation of `lastAttrName` on a cons cell. -/
theorem lastAttrName_cons (d : Expr) (rest : List Expr) :
    lastAttrName (d :: rest) =
      match lastAttrName rest with
      | some a => some a
      | none => match d with | .call (.attr _ a) _ _ => some a | _ => none := rfl

/-- Unfolding equation of `lastConstPathKw` on a cons cell. -/
theorem lastConstPathKw_cons (kw : Option String × Expr)
    (rest : List (Option String × Expr)) :
    lastConstPathKw (kw :: rest) =
      match lastConstPathKw rest with
      | some c => some c
      | none =>
        if kw.1 = some "path" then
          (match dotS kw.2 with | .ok c => some c | .error _ => none)
        else none := rfl

/-- What one successful route-decorator step does: the method becomes the
lower-cased attribute, the auth flag is untouched, and the new path is the
keyword loop's result over the positional loop's result. -/
theorem processDecorator_attr (st : DecState) (v : Expr) (a : String)
    (args : List Expr) (kws : List (Option String × Expr)) (st' : DecState)
    (h : processDecorator st (Expr.call (Expr.attr v a) args kws) = Except.ok st') :
    st'.method = some (pyLower a) ∧ st'.auth_required = st.auth_required ∧
      kwPath (argsPath st.path args) kws = Except.ok st'.path := by
  cases hkw : kwPath (argsPath st.path args) kws with
  | error e => simp [processDecorator, hkw] at h
  | ok p =>
    simp only [processDecorator, hkw, Except.ok.injEq] at h
    subst h
    exact ⟨rfl, rfl, rfl⟩

/-- A decorator that is not a route registration succeeds and leaves `path`
and `method` unchanged. -/
theorem processDecorator_nonattr (st : DecState) (d : Expr)
    (hd : isRouteDecorator d = false) :
    ∀ st', processDecorator st d = Except.ok st' →
      st'.method = st.method ∧ st'.path = st.path := by
  intro st' h
  cases d with
  | call func args kws =>
    cases func with
    | attr v a => simp [isRouteDecorator] at hd
    | name id =>
      simp only [processDecorator, Except.ok.injEq] at h
      rw [← h]
      by_cases hid : id = "requires_auth"
      · rw [if_pos hid]; exact ⟨rfl, rfl⟩
      · rw [if_neg hid]; exact ⟨rfl, rfl⟩
    | call f1 a1 k1 => simp only [processDecorator, Except.ok.injEq] at h; rw [← h]; exact ⟨rfl, rfl⟩
    | const c => simp only [processDecorator, Except.ok.injEq] at h; rw [← h]; exact ⟨rfl, rfl⟩
    | subscript v s => simp only [processDecorator, Except.ok.injEq] at h; rw [← h]; exact ⟨rfl, rfl⟩
    | tup es => simp only [processDecorator, Except.ok.injEq] at h; rw [← h]; exact ⟨rfl, rfl⟩
    | other => simp only [processDecorator, Except.ok.injEq] at h; rw [← h]; exact ⟨rfl, rfl⟩
  | name id => simp only [processDecorator, Except.ok.injEq] at h; rw [← h]; exact ⟨rfl, rfl⟩
  | attr v a => simp only [processDecorator, Except.ok.injEq] at h; rw [← h]; exact ⟨rfl, rfl⟩
  | const c => simp only [processDecorator, Except.ok.injEq] at h; rw [← h]; exact ⟨rfl, rfl⟩
  | subscript v s => simp only [processDecorator, Except.ok.injEq] at h; rw [← h]; exact ⟨rfl, rfl⟩
  | tup es => simp only [processDecorator, Except.ok.injEq] at h; rw [← h]; exact ⟨rfl, rfl⟩
  | other => simp only [processDecorator, Except.ok.injEq] at h; rw [← h]; exact ⟨rfl, rfl⟩

/-- The keyword loop's successful result: the last constant-valued `path`
keyword wins; with no `path` keyword the input passes through. -/
theorem kwPath_ok (kws : List (Option String × Expr)) :
    ∀ p q, kwPath p kws = Except.ok q →
      q = match lastConstPathKw kws with
          | some c => some c
          | none => p := by
  induction kws with
  | nil => intro p q h; cases h; rfl
  | cons kw rest ih =>
    intro p q h
    unfold kwPath at h
    rw [lastConstPathKw_cons]
    by_cases hk : kw.1 = some "path"
    · rw [if_pos hk] at h
      cases hv : dotS kw.2 with
      | error e => simp [hv] at h
      | ok v =>
        simp only [hv] at h
        have hq := ih _ _ h
        simp only [if_pos hk, hv]
        cases hr : lastConstPathKw rest with
        | some c => simp only [hr] at hq ⊢; exact hq
        | none => simp only [hr] at hq ⊢; exact hq
    · rw [if_neg hk] at h
      have hq := ih _ _ h
      simp only [if_neg hk]
      cases hr : lastConstPathKw rest with
      | some c => simp only [hr] at hq ⊢; exact hq
      | none => simp only [hr] at hq ⊢; exact hq

/-- The positional loop's result: the last literal-string argument wins;
with none, the input passes through. -/
theorem argsPath_eq (args : List Expr) :
    ∀ p, argsPath p args =
      match lastStrLit args with
      | some s => some (Const.str s)
      | none => p := by
  induction args with
  | nil => intro p; rfl
  | cons a rest ih =>
    intro p
    show argsPath _ rest = _
    rw [ih, lastStrLit_cons]
    cases hr : lastStrLit rest with
    | some s => rfl
    | none =>
      cases a with
      | const c => cases c <;> rfl
      | name id => rfl
      | attr v a1 => rfl
      | call f1 a1 k1 => rfl
      | subscript v s => rfl
      | tup es => rfl
      | other => rfl

/-- After a successful decorator loop, the method is the lower-cased
attribute of the last route decorator, or the starting method when there is
none. -/
theorem decLoop_method (ds : List Expr) :
    ∀ st0 st, decLoop st0 ds = Except.ok st →
      st.method =
        match lastAttrName ds with
        | some a => some (pyLower a)
        | none => st0.method := by
  induction ds with
  | nil => intro st0 st h; cases h; rfl
  | cons d rest ih =>
    intro st0 st h
    unfold decLoop at h
    rw [lastAttrName_cons]
    cases hp : processDecorator st0 d with
    | error e => simp [hp] at h
    | ok st1 =>
      simp only [hp] at h
      have hrest := ih st1 st h
      cases hr : lastAttrName rest with
      | some a => simp only [hr] at hrest ⊢; exact hrest
      | none =>
        simp only [hr] at hrest ⊢
        cases hroute : isRouteDecorator d with
        | true =>
          obtain ⟨v, a, args, kws, rfl⟩ := isRoute_shape d hroute
          obtain ⟨hm, _, _⟩ := processDecorator_attr st0 v a args kws st1 hp
          rw [hrest, hm]
        | false =>
          obtain ⟨hm, _⟩ := processDecorator_nonattr st0 d hroute st1 hp
          rw [hrest, hm]
          cases d with
          | call func args kws =>
            cases func with
            | attr v a => simp [isRouteDecorator] at hroute
            | name id => rfl
            | call f1 a1 k1 => rfl
            | const c => rfl
            | subscript v s => rfl
            | tup es => rfl
            | other => rfl
          | name id => rfl
          | attr v a => rfl
          | const c => rfl
          | subscript v s => rfl
          | tup es => rfl
          | other => rfl

/-- With no literal-string positional argument, the positional loop sees
nothing. -/
theorem lastStrLit_none (args : List Expr) :
    (args.any fun a => match a with | .const (.str _) => true | _ => false) = false →
    lastStrLit args = none := by
  induction args with
  | nil => intro _; rfl
  | cons a rest ih =>
    intro h
    rw [List.any_cons, Bool.or_eq_false_iff] at h
    rw [lastStrLit_cons, ih h.2]
    cases a with
    | const c => cases c with
      | str s => cases h.1
      | int n => rfl
      | noneC => rfl
    | name id => rfl
    | attr v a1 => rfl
    | call f1 a1 k1 => rfl
    | subscript v s => rfl
    | tup es => rfl
    | other => rfl

/-- With no keyword named `path`, the keyword loop sees nothing. -/
theorem lastConstPathKw_none (kws : List (Option String × Expr)) :
    (kws.any fun kw => kw.1 = some "path") = false →
    lastConstPathKw kws = none := by
  induction kws with
  | nil => intro _; rfl
  | cons kw rest ih =>
    intro h
    rw [List.any_cons, Bool.or_eq_false_iff] at h
    rw [lastConstPathKw_cons, ih h.2, if_neg (of_decide_eq_false h.1)]

/-- A successful decorator step that writes no path value preserves the
previous decorators' path. -/
theorem processDecorator_nowrite (st : DecState) (d : Expr) (st' : DecState)
    (h : processDecorator st d = Except.ok st') (hw : pathWrites d = false) :
    st'.path = st.path := by
  cases hroute : isRouteDecorator d with
  | false => exact (processDecorator_nonattr st d hroute st' h).2
  | true =>
    obtain ⟨v, a, args, kws, rfl⟩ := isRoute_shape d hroute
    obtain ⟨_, _, hkw⟩ := processDecorator_attr st v a args kws st' h
    have hq := kwPath_ok kws _ _ hkw
    simp only [pathWrites, Bool.or_eq_false_iff] at hw
    rw [lastConstPathKw_none kws hw.2] at hq
    rw [hq, argsPath_eq, lastStrLit_none args hw.1]

/-! ## Claim C3 -/

/-- C3 counterexample: on `fC3` (`@router.get("/a", "/b")` then
`@router.post()`) the code produces a record whose path is `"/b"` — the
LAST positional literal of the EARLIER decorator — with method `post` from
the later decorator.  The claim is false at this input twice over: the last
matching decorator (`router.post()`) determines no path (so under the
claim's rule, together with the catalog invariant, no record with path
`"/b"` could exist — values from the earlier decorator do merge in), and
within the first decorator the claim's "first positional argument" rule
would pick `"/a"`, not `"/b"`. -/
theorem C3_counterexample :
    (parse_endpoint fC3).map (fun r => (r.path, r.method)) =
      some (Const.str "/b", "post") ∧
    (parse_endpoint fC3).map (fun r => (r.path, r.method)) ≠
      some (Const.str "/a", "post") ∧
    parse_endpoint fC3 ≠ none := by
  decide

/-- C3 as amended: within one route decorator, `path` is the LAST positional
literal-string argument, overridden by the keyword named `path` (read after
the positionals, last occurrence winning, value read through `.s`); the
record's method is the lower-cased attribute of the last route decorator;
and a route decorator that carries no path argument at all keeps the path
set by earlier decorators — values set by earlier decorators do merge into
the record. -/
theorem C3_last_write_merge :
    (∀ st v a args kws st',
      processDecorator st (Expr.call (Expr.attr v a) args kws) = Except.ok st' →
        st'.method = some (pyLower a) ∧
        st'.path =
          (match lastConstPathKw kws with
           | some c => some c
           | none =>
             match lastStrLit args with
             | some s => some (Const.str s)
             | none => st.path)) ∧
    (∀ ds st, decLoop initDecState ds = Except.ok st →
      st.method = (lastAttrName ds).map pyLower) ∧
    (∀ st d st', processDecorator st d = Except.ok st' → pathWrites d = false →
      st'.path = st.path) := by
  refine ⟨?_, ?_, ?_⟩
  · intro st v a args kws st' h
    obtain ⟨hm, _, hkw⟩ := processDecorator_attr st v a args kws st' h
    refine ⟨hm, ?_⟩
    have hq := kwPath_ok kws _ _ hkw
    rw [hq]
    cases hr : lastConstPathKw kws with
    | some c => rfl
    | none => simp only; exact argsPath_eq args st.path
  · intro ds st h
    rw [decLoop_method ds initDecState st h]
    cases lastAttrName ds with
    | some a => rfl
    | none => rfl
  · exact fun st d st' h hw => processDecorator_nowrite st d st' h hw

/-- C3 witness: the amended method rule applied to `fC3`'s concrete
decorator list. -/
theorem C3_last_write_merge_witness :
    stC3.method = (lastAttrName fC3.decorator_list).map pyLower :=
  C3_last_write_merge.2.1 fC3.decorator_list stC3 rfl

/-- On a string path the parameter comprehension always succeeds, mapping
each record parameter through `oaParamStr`. -/
theorem oaParams_str (l : List ParamRec) (ps : String) :
    oaParams (Const.str ps) l = Except.ok (l.map (oaParamStr ps)) := by
  induction l with
  | nil => rfl
  | cons p rest ih =>
    simp only [oaParams, pyInPath, ih, List.map]
    rfl

/-- On an endpoint with a dictionary description and a string path the
OpenAPI operation builder succeeds and yields `opStr`. -/
theorem opOf_ok (e : APIEndpoint) (d : ParsedDoc) (ps : String)
    (h1 : e.description = DescOrStr.parsed d) (h2 : e.path = Const.str ps) :
    opOf e = Except.ok (opStr d ps e) := by
  unfold opOf
  rw [h1, h2]
  simp only [descGet, oaParams_str]
  rfl

/-- On an endpoint with a dictionary description the Markdown block builder
succeeds and yields `endpointBlock`. -/
theorem endpointLines_ok (e : APIEndpoint) (d : ParsedDoc)
    (h : e.description = DescOrStr.parsed d) :
    endpointLines e = Except.ok (endpointBlock d e) := by
  unfold endpointLines
  rw [h]
  rfl

/-! ## Claim C7 -/

/-- C7 counterexample: for the record `eC7`, whose one parameter has an
absent type, the OpenAPI emitter writes schema type `"string"` — not
`"Any"` — and the Markdown table's Type column renders the Python `None`
value as `"None"` — not `"Any"`. -/
theorem C7_counterexample :
    (okOp (opOf eC7)).parameters.map OAParam.schemaType = ["string"] ∧
    ((okStrs (endpointLines eC7)).contains "| x | None | Yes |  |") = true ∧
    (okOp (opOf eC7)).parameters.map OAParam.schemaType ≠ ["Any"] ∧
    ¬ ("| x | Any | Yes |  |" ∈ okStrs (endpointLines eC7)) := by
  decide

/-- C7 as amended: for every record parameter with an absent type, the
OpenAPI parameter schema type is the default `"string"` (the falsy-`type`
branch of line 170), and the Markdown Type column shows `"None"`, the
f-string rendering of Python's `None` (line 225); neither emitter renders
the absent type as `"Any"`. -/
theorem C7_absent_type_rendering :
    ∀ e d ps p, e.description = DescOrStr.parsed d → e.path = Const.str ps →
      p ∈ e.parameters → p.type = none →
      (opOf e = Except.ok (opStr d ps e) ∧
        oaParamStr ps p ∈ (opStr d ps e).parameters ∧
        (oaParamStr ps p).schemaType = "string") ∧
      (endpointLines e = Except.ok (endpointBlock d e) ∧
        pyShowOptStr p.type = "None" ∧
        ("| " ++ p.name ++ " | " ++ pyShowOptStr p.type ++ " | "
            ++ (if p.required then "Yes" else "No") ++ " | "
            ++ lookupD d.parameters p.name "" ++ " |") ∈ endpointBlock d e) := by
  intro e d ps p h1 h2 hmem ht
  refine ⟨⟨opOf_ok e d ps h1 h2, List.mem_map_of_mem _ hmem, by simp [oaParamStr, ht]⟩,
    endpointLines_ok e d h1, by rw [ht]; rfl, ?_⟩
  have hne : e.parameters ≠ [] := List.ne_nil_of_mem hmem
  have hrow := List.mem_map_of_mem
    (fun q : ParamRec =>
      "| " ++ q.name ++ " | " ++ pyShowOptStr q.type ++ " | "
        ++ (if q.required then "Yes" else "No") ++ " | "
        ++ lookupD d.parameters q.name "" ++ " |") hmem
  unfold endpointBlock
  rw [if_pos hne]
  simp only [List.mem_append, List.mem_cons]
  tauto

/-- C7 witness: the amended rendering rule applied to the concrete record
`eC7` and its untyped parameter. -/
theorem C7_absent_type_witness :
    (opOf eC7 = Except.ok (opStr emptyDoc "/x" eC7) ∧
      oaParamStr "/x" pC7 ∈ (opStr emptyDoc "/x" eC7).parameters ∧
      (oaParamStr "/x" pC7).schemaType = "string") ∧
    (endpointLines eC7 = Except.ok (endpointBlock emptyDoc eC7) ∧
      pyShowOptStr pC7.type = "None" ∧
      ("| " ++ pC7.name ++ " | " ++ pyShowOptStr pC7.type ++ " | "
          ++ (if pC7.required then "Yes" else "No") ++ " | "
          ++ lookupD emptyDoc.parameters pC7.name "" ++ " |") ∈ endpointBlock emptyDoc eC7) :=
  C7_absent_type_rendering eC7 emptyDoc "/x" pC7 rfl rfl (by decide) rfl

/-! ## Claim C9 -/

/-- C9: when the catalog holds two records with the same (string) path and
the same method, the OpenAPI emitter's `paths[path][method]` entry is
exactly the operation of the SECOND record — last write wins, no error and
no listing of both (its summary is the second record's description) — while
the Markdown emitter lists BOTH records' blocks under the single path
heading, in catalog insertion order. -/
theorem C9_duplicate_path_method :
    ∀ r1 r2 ps m d1 d2,
      r1.path = Const.str ps → r2.path = Const.str ps →
      r1.method = m → r2.method = m →
      r1.description = DescOrStr.parsed d1 → r2.description = DescOrStr.parsed d2 →
      ((generate_openapi_spec [r1, r2]).map OpenAPISpec.paths =
          Except.ok [(Const.str ps, [(m, opStr d2 ps r2)])] ∧
        (opStr d2 ps r2).summary = d2.description) ∧
      markdownLines [r1, r2] =
        Except.ok ("# API Documentation\n\n" :: ("## " ++ ps ++ "\n")
          :: (endpointBlock d1 r1 ++ endpointBlock d2 r2)) := by
  intro r1 r2 ps m d1 d2 h1 h2 h3 h4 h5 h6
  refine ⟨⟨?_, rfl⟩, ?_⟩
  · simp only [generate_openapi_spec, oaPathsLoop,
      opOf_ok r1 d1 ps h5 h1, opOf_ok r2 d2 ps h6 h2, h1, h2, h3, h4]
    simp [setKey, lookupD, Except.map]
  · unfold markdownLines
    simp only [List.foldl_cons, List.foldl_nil, groupStep, h1, h2, if_pos]
    simp only [sectionsOf, pathLines, blocksOf,
      endpointLines_ok r1 d1 h5, endpointLines_ok r2 d2 h6]
    simp [pyShowConst, strOfConst]

/-- C9 witness: the duplicate-pair behaviour at the two concrete `get /dup`
records. -/
theorem C9_duplicate_witness :
    ((generate_openapi_spec [rDup1, rDup2]).map OpenAPISpec.paths =
        Except.ok [(Const.str "/dup", [("get", opStr dDup2 "/dup" rDup2)])] ∧
      (opStr dDup2 "/dup" rDup2).summary = dDup2.description) ∧
    markdownLines [rDup1, rDup2] =
      Except.ok ("# API Documentation\n\n" :: ("## " ++ "/dup" ++ "\n")
        :: (endpointBlock dDup1 rDup1 ++ endpointBlock dDup2 rDup2)) :=
  C9_duplicate_path_method rDup1 rDup2 "/dup" "get" dDup1 dDup2 rfl rfl rfl rfl rfl rfl

/-- Unfolding equation of the atom parser at positive fuel. -/
theorem parseAtomSub_succ (f : Nat) (cs : List Char) :
    parseAtomSub (Nat.succ f) cs =
      match cs.takeWhile isIdentChar with
      | [] => none
      | c :: rest0 =>
        if isIdentStart c then
          parseSubSuffix f (Expr.name (String.mk (c :: rest0))) (cs.dropWhile isIdentChar)
        else if (c :: rest0).all Char.isDigit && (c != '0' || rest0.isEmpty) then
          parseSubSuffix f (Expr.const (Const.int (Int.ofNat (digitsVal (c :: rest0)))))
            (cs.dropWhile isIdentChar)
        else none := rfl

/-- Unfolding equation of the suffix parser at positive fuel, empty input. -/
theorem parseSubSuffix_succ_nil (f : Nat) (e : Expr) :
    parseSubSuffix (Nat.succ f) e [] = some (e, []) := rfl

/-- Unfolding equation of the suffix parser at positive fuel, nonempty
input. -/
theorem parseSubSuffix_succ_cons (f : Nat) (e : Expr) (c : Char) (rest : List Char) :
    parseSubSuffix (Nat.succ f) e (c :: rest) =
      if c = '[' then
        match parseExprC f rest with
        | some (inner, rest') =>
          match rest' with
          | [] => none
          | c' :: rest'' =>
            if c' = ']' then parseSubSuffix f (Expr.subscript e inner) rest'' else none
        | none => none
      else if c = '.' then
        match rest.takeWhile isIdentChar with
        | [] => none
        | c2 :: t2 =>
          if isIdentStart c2 then
            parseSubSuffix f (Expr.attr e (String.mk (c2 :: t2))) (rest.dropWhile isIdentChar)
          else none
      else some (e, c :: rest) := rfl

/-- Unfolding equation of the comma layer at positive fuel. -/
theorem parseExprC_succ (f : Nat) (cs : List Char) :
    parseExprC (Nat.succ f) cs =
      match parseAtomSub f cs with
      | none => none
      | some (e, rest) =>
        match rest with
        | ',' :: rest' =>
          match rest' with
          | [] => some (Expr.tup [e], [])
          | ']' :: _ => some (Expr.tup [e], rest')
          | _ =>
            match parseExprC f rest' with
            | some (e2, rest'') =>
              some ((match e2 with
                     | Expr.tup es => Expr.tup (e :: es)
                     | _ => Expr.tup [e, e2]), rest'')
            | none => none
        | _ => some (e, rest) := rfl

/-- Character data of the literal `[`. -/
theorem dataLBrack : ("[" : String).data = ['['] := rfl

/-- Character data of the literal `]`. -/
theorem dataRBrack : ("]" : String).data = [']'] := rfl

/-- `takeWhile` passes over a prefix all of whose characters satisfy the
predicate. -/
theorem takeWhile_app (p : Char → Bool) (xs : List Char) :
    (∀ x ∈ xs, p x = true) →
      ∀ ys, (xs ++ ys).takeWhile p = xs ++ ys.takeWhile p := by
  induction xs with
  | nil => intro _ ys; rfl
  | cons x rest ih =>
    intro h ys
    have hx : p x = true := h x (List.mem_cons_self x rest)
    show (x :: (rest ++ ys)).takeWhile p = _
    rw [List.takeWhile_cons, hx]
    simp only [if_true]
    rw [ih (fun y hy => h y (List.mem_cons_of_mem x hy)) ys]
    rfl

/-- `dropWhile` passes over a prefix all of whose characters satisfy the
predicate. -/
theorem dropWhile_app (p : Char → Bool) (xs : List Char) :
    (∀ x ∈ xs, p x = true) →
      ∀ ys, (xs ++ ys).dropWhile p = ys.dropWhile p := by
  induction xs with
  | nil => intro _ ys; rfl
  | cons x rest ih =>
    intro h ys
    have hx : p x = true := h x (List.mem_cons_self x rest)
    show (x :: (rest ++ ys)).dropWhile p = _
    rw [List.dropWhile_cons, hx]
    simp only [if_true]
    exact ih (fun y hy => h y (List.mem_cons_of_mem x hy)) ys

/-- Character data of a rendered subscript. -/
theorem data_subscript (v s : Expr) :
    (get_type_hint (Expr.subscript v s)).data =
      (get_type_hint v).data ++ '[' :: ((get_type_hint s).data ++ [']']) := by
  show (get_type_hint v ++ "[" ++ get_type_hint s ++ "]").data = _
  simp [String.data_append, dataLBrack, dataRBrack]

/-- Unfolding equation of `subDepth` on a subscript. -/
theorem subDepth_subscript (v s : Expr) :
    subDepth (Expr.subscript v s) = subDepth s + 1 := rfl

/-- The fuel bound of any annotation is covered by the re-parse fuel. -/
theorem bndA_le (e : Expr) : bndA e ≤ 2 * (get_type_hint e).data.length + 3 := by
  have : ∀ (n : Nat) (e : Expr), subDepth e ≤ n →
      bndA e ≤ 2 * (get_type_hint e).data.length + 3 := by
    intro n
    induction n with
    | zero =>
      intro e hd
      cases e with
      | subscript v s => rw [subDepth_subscript] at hd; omega
      | name a => simp [bndA]
      | attr v a => simp [bndA]
      | call f1 a1 k1 => simp [bndA]
      | const c => simp [bndA]
      | tup es => simp [bndA]
      | other => simp [bndA]
    | succ n ih =>
      intro e hd
      cases e with
      | subscript v s =>
        rw [subDepth_subscript] at hd
        have hs := ih s (by omega)
        have hlen : (get_type_hint (Expr.subscript v s)).data.length =
            (get_type_hint v).data.length + ((get_type_hint s).data.length + 2) := by
          rw [data_subscript]
          simp
        simp only [bndA, hlen]
        omega
      | name a => simp [bndA]
      | attr v a => simp [bndA]
      | call f1 a1 k1 => simp [bndA]
      | const c => simp [bndA]
      | tup es => simp [bndA]
      | other => simp [bndA]
  exact this (subDepth e) e (Nat.le_refl _)

/-- Rebuilding a string from its character data. -/
theorem String_mk_data (s : String) : String.mk s.data = s := by
  obtain ⟨l⟩ := s
  rfl

/-- The pieces of a well-formed identifier. -/
theorem identOK_parts (a : String) (h : identOK a = true) :
    ∃ c t, a.data = c :: t ∧ isIdentStart c = true ∧
      ∀ x ∈ a.data, isIdentChar x = true := by
  unfold identOK at h
  cases hd : a.data with
  | nil => rw [hd] at h; cases h
  | cons c t =>
    rw [hd] at h
    rw [Bool.and_eq_true] at h
    refine ⟨c, t, rfl, h.1, ?_⟩
    exact fun x hx => List.all_eq_true.mp h.2 x hx

/-- The bracket characters are not identifier characters. -/
theorem lbrack_not_ident : isIdentChar '[' = false := by decide

/-- The closing bracket is not an identifier character. -/
theorem rbrack_not_ident : isIdentChar ']' = false := by decide

/-- An admissible remainder contributes nothing to the identifier scan. -/
theorem rest_scan (rest : List Char) (hrest : rest = [] ∨ ∃ t, rest = ']' :: t) :
    rest.takeWhile isIdentChar = [] ∧ rest.dropWhile isIdentChar = rest := by
  cases hrest with
  | inl h => subst h; exact ⟨rfl, rfl⟩
  | inr h =>
    obtain ⟨t, rfl⟩ := h
    constructor
    · rw [List.takeWhile_cons, rbrack_not_ident]
      rfl
    · rw [List.dropWhile_cons, rbrack_not_ident]
      rfl

/-- Completeness of the modelled re-parse on identifier atoms: the rendered
name followed by an admissible remainder parses back to the name. -/
theorem parseName_complete (a : String) (h : identOK a = true)
    (rest : List Char) (hrest : rest = [] ∨ ∃ t, rest = ']' :: t) (f : Nat) :
    parseAtomSub (f + 2) ((get_type_hint (Expr.name a)).data ++ rest) =
      some (Expr.name a, rest) := by
  obtain ⟨c, t, hdl, hstart, hall⟩ := identOK_parts a h
  obtain ⟨htk, hdr⟩ := rest_scan rest hrest
  have htw : ((get_type_hint (Expr.name a)).data ++ rest).takeWhile isIdentChar = c :: t := by
    show (a.data ++ rest).takeWhile isIdentChar = c :: t
    rw [takeWhile_app isIdentChar a.data hall rest, htk, List.append_nil, hdl]
  have hdw : ((get_type_hint (Expr.name a)).data ++ rest).dropWhile isIdentChar = rest := by
    show (a.data ++ rest).dropWhile isIdentChar = rest
    rw [dropWhile_app isIdentChar a.data hall rest, hdr]
  show parseAtomSub (Nat.succ (f + 1)) _ = _
  rw [parseAtomSub_succ]
  simp only [htw, hdw, hstart, if_true]
  rw [← hdl, String_mk_data]
  cases hrest with
  | inl hnil => subst hnil; exact parseSubSuffix_succ_nil f (Expr.name a)
  | inr hcons =>
    obtain ⟨t', rfl⟩ := hcons
    rw [parseSubSuffix_succ_cons]
    rw [if_neg (by decide : ¬(']' : Char) = '['), if_neg (by decide : ¬(']' : Char) = '.')]

/-- Completeness of the modelled re-parse: the rendering of every good
annotation, followed by an admissible remainder, parses back to the
annotation itself, at the chosen fuel. -/
theorem parseComplete (e : Expr) (hg : goodAnn e = true)
    (rest : List Char) (hrest : rest = [] ∨ ∃ t, rest = ']' :: t) (f : Nat) :
    parseAtomSub (f + bndA e) ((get_type_hint e).data ++ rest) = some (e, rest) := by
  have main : ∀ (n : Nat) (e : Expr), subDepth e ≤ n → goodAnn e = true →
      ∀ rest, (rest = [] ∨ ∃ t, rest = ']' :: t) →
      ∀ f, parseAtomSub (f + bndA e) ((get_type_hint e).data ++ rest) = some (e, rest) := by
    intro n
    induction n with
    | zero =>
      intro e hd hg rest hrest f
      cases e with
      | name a => exact parseName_complete a hg rest hrest f
      | subscript v s => rw [subDepth_subscript] at hd; omega
      | attr v a => simp [goodAnn] at hg
      | call f1 a1 k1 => simp [goodAnn] at hg
      | const c => simp [goodAnn] at hg
      | tup es => simp [goodAnn] at hg
      | other => simp [goodAnn] at hg
    | succ n ih =>
      intro e hd hg rest hrest f
      cases e with
      | name a => exact parseName_complete a hg rest hrest f
      | subscript v s =>
        rw [subDepth_subscript] at hd
        cases v with
        | name a =>
          simp only [goodAnn, Bool.and_eq_true] at hg
          obtain ⟨c, t, hdl, hstart, hall⟩ := identOK_parts a hg.1
          have hshape : (get_type_hint (Expr.subscript (Expr.name a) s)).data ++ rest =
              a.data ++ ('[' :: ((get_type_hint s).data ++ (']' :: rest))) := by
            rw [data_subscript]
            show (a.data ++ _) ++ _ = _
            simp [List.append_assoc]
          have htw : (a.data ++ ('[' :: ((get_type_hint s).data ++ (']' :: rest)))).takeWhile
              isIdentChar = c :: t := by
            rw [takeWhile_app isIdentChar a.data hall, List.takeWhile_cons, lbrack_not_ident]
            simp [hdl]
          have hdw : (a.data ++ ('[' :: ((get_type_hint s).data ++ (']' :: rest)))).dropWhile
              isIdentChar = '[' :: ((get_type_hint s).data ++ (']' :: rest)) := by
            rw [dropWhile_app isIdentChar a.data hall, List.dropWhile_cons, lbrack_not_ident]
            rfl
          have hinner := ih s (by omega) hg.2 (']' :: rest) (Or.inr ⟨rest, rfl⟩) f
          have hexp : parseExprC (f + (bndA s + 1))
              ((get_type_hint s).data ++ (']' :: rest)) = some (s, ']' :: rest) := by
            show parseExprC (Nat.succ (f + bndA s)) _ = _
            rw [parseExprC_succ, hinner]
            rfl
          rw [hshape]
          show parseAtomSub (Nat.succ (f + (bndA s + 2))) _ = _
          rw [parseAtomSub_succ]
          simp only [htw, hdw, hstart, if_true]
          rw [← hdl, String_mk_data]
          show parseSubSuffix (Nat.succ (f + (bndA s + 1))) _ _ = _
          rw [parseSubSuffix_succ_cons, if_pos rfl, hexp]
          show (if (']' : Char) = ']' then
              parseSubSuffix (f + (bndA s + 1)) (Expr.subscript (Expr.name a) s) rest
            else none) = some (Expr.subscript (Expr.name a) s, rest)
          rw [if_pos rfl]
          show parseSubSuffix (Nat.succ (f + bndA s)) _ _ = _
          cases hrest with
          | inl hnil => subst hnil; exact parseSubSuffix_succ_nil _ _
          | inr hcons =>
            obtain ⟨t', rfl⟩ := hcons
            rw [parseSubSuffix_succ_cons]
            rw [if_neg (by decide : ¬(']' : Char) = '['),
              if_neg (by decide : ¬(']' : Char) = '.')]
        | attr v1 a1 => simp [goodAnn] at hg
        | call f1 a1 k1 => simp [goodAnn] at hg
        | const c => simp [goodAnn] at hg
        | subscript v1 s1 => simp [goodAnn] at hg
        | tup es => simp [goodAnn] at hg
        | other => simp [goodAnn] at hg
      | attr v a => simp [goodAnn] at hg
      | call f1 a1 k1 => simp [goodAnn] at hg
      | const c => simp [goodAnn] at hg
      | tup es => simp [goodAnn] at hg
      | other => simp [goodAnn] at hg
  exact main (subDepth e) e (Nat.le_refl _) hg rest hrest f

/-- Rendered good annotations re-parse to themselves. -/
theorem reparse_good (e : Expr) (hg : goodAnn e = true) :
    reparseAnn (get_type_hint e) = some e := by
  unfold reparseAnn
  have hb := bndA_le e
  obtain ⟨f, hf⟩ : ∃ f, f + bndA e = 2 * (get_type_hint e).data.length + 3 :=
    ⟨2 * (get_type_hint e).data.length + 3 - bndA e, by omega⟩
  have hp := parseComplete e hg [] (Or.inl rfl) f
  rw [List.append_nil, hf] at hp
  have hx : parseExprC (2 * (get_type_hint e).data.length + 4) (get_type_hint e).data =
      some (e, []) := by
    show parseExprC (Nat.succ (2 * (get_type_hint e).data.length + 3)) _ = _
    rw [parseExprC_succ, hp]
  rw [hx]

/-! ## Claim C5 -/

/-- C5 counterexample: two string-constant annotations (legal
forward-reference annotations) break the claimed round trip at depth 0.
`Constant("a b")` renders to `a b`, which does not re-parse at all
(a `SyntaxError` for `ast.parse` and for the model alike); and
`Constant("a.b")` renders to `a.b`, which re-parses fine — as an attribute
access — but that node re-renders through the fallback as `Any`, not as the
first rendering `a.b`.  So "re-parsing produces the same string as the
first rendering" fails for both an unparseable and a parseable rendering. -/
theorem C5_counterexample :
    (get_type_hint (Expr.const (Const.str "a b")) = "a b" ∧
      (reparseAnn "a b").isNone = true) ∧
    (get_type_hint (Expr.const (Const.str "a.b")) = "a.b" ∧
      (reparseAnn "a.b").map get_type_hint = some "Any" ∧
      ("Any" : String) ≠ "a.b") := by
  refine ⟨⟨rfl, rfl⟩, rfl, rfl, by decide⟩

/-- C5 as amended: for every annotation built from identifier names and
nested subscripts — the nested generic annotations the spec's round-trip
sentence describes — re-parsing the rendered string succeeds, returns the
annotation itself, and re-rendering therefore reproduces the first string
exactly, at any depth ≥ 0.  The round trip does not extend to every
annotation node: a string-constant annotation can render to a string that
does not re-parse at all (`a b`) or to one that re-parses to a node of a
different shape and re-renders as `Any` (`a.b`). -/
theorem C5_roundtrip_generics :
    ∀ e, goodAnn e = true →
      reparseAnn (get_type_hint e) = some e ∧
      (reparseAnn (get_type_hint e)).map get_type_hint = some (get_type_hint e) := by
  intro e hg
  have h := reparse_good e hg
  exact ⟨h, by rw [h]; rfl⟩

/-- C5 witness: the round trip applied to the concrete depth-2 generic
`List[List[int]]`. -/
theorem C5_roundtrip_witness :
    reparseAnn (get_type_hint eG) = some eG ∧
    (reparseAnn (get_type_hint eG)).map get_type_hint = some (get_type_hint eG) :=
  C5_roundtrip_generics eG (by decide)

/-- C10 witness: the first-parameter rule applied to the concrete top-level
handler `fC10`, whose declared parameters are `request` and `item_id`; the
record keeps only `item_id`. -/
theorem C10_skip_first_param_witness :
    rC10.parameters.map ParamRec.name = (fC10.args.drop 1).map Arg.arg :=
  C10_skip_first_param.1 fC10 rC10 (by decide)
